import Mathlib

/-!
Verification of the US-presidential-stats scraping/normalization pipeline.

The Python source (src/scraping.py, src/manipulation.py) is shallowly embedded:
Python strings are Lean `String`s, Python `str.split(sep)` for a one-character
separator is `pySplit`, Python `int(...)` on decimal strings is `pyInt`,
Python dicts (which preserve insertion order) are association lists with
`lookupA`/`setA`, and a Python function that can raise an exception is
embedded as an `Option`-returning function (`none` = exception raised).
-/

namespace USPres

/-! ## String utilities (Python built-ins) -/

/-- Python one-character `str.split`: `splitChars sep l` splits the character
list `l` at every occurrence of `sep`, keeping empty pieces, and always
returns at least one piece (like Python `"".split(c) == [""]`). -/
def splitChars (sep : Char) : List Char → List (List Char)
  | [] => [[]]
  | c :: cs =>
    match splitChars sep cs with
    | [] => [[]]
    | g :: gs => if c = sep then [] :: g :: gs else (c :: g) :: gs

/-- Python `s.split(sep)` for a one-character separator `sep`. -/
def pySplit (s : String) (sep : Char) : List String :=
  (splitChars sep s.data).map (fun l => ⟨l⟩)

/-- `startsWithL l p` : the character list `l` starts with `p`. -/
def startsWithL : List Char → List Char → Bool
  | _, [] => true
  | [], _ :: _ => false
  | a :: as, b :: bs => a = b && startsWithL as bs

/-- Substring test on character lists (Python `needle in hay`). -/
def containsL : List Char → List Char → Bool
  | [], needle => needle.isEmpty
  | hay@(_ :: t), needle => startsWithL hay needle || containsL t needle

/-- Python substring containment `needle in hay` on strings. -/
def pyContains (hay needle : String) : Bool :=
  containsL hay.data needle.data

/-- Whitespace characters stripped by Python `int()`. -/
def isSpaceCh (c : Char) : Bool :=
  c = ' ' || c = '\t' || c = '\n' || c = '\r'

/-- Decimal digit test. -/
def isDigitCh (c : Char) : Bool :=
  decide ('0' ≤ c ∧ c ≤ '9')

/-- Numeric value of a decimal digit character. -/
def toDigitNat (c : Char) : Nat :=
  c.toNat - 48

/-- The decimal digit character for `d < 10`. -/
def digitCh (d : Nat) : Char :=
  Char.ofNat (48 + d)

/-- Big-endian decimal value of a digit list (`Python int` on the digits). -/
def parseBE (l : List Nat) : Nat :=
  l.foldl (fun a d => a * 10 + d) 0

/-- Parse a nonempty all-digit character list as a natural number. -/
def parseDigits (l : List Char) : Option Nat :=
  if l ≠ [] ∧ l.all isDigitCh then some (parseBE (l.map toDigitNat)) else none

/-- Python `int(s)` on a decimal string: strip surrounding whitespace, then an
optional sign followed by at least one digit; anything else raises
`ValueError`, embedded as `none`. -/
def pyInt (s : String) : Option Int :=
  let l := ((s.data.dropWhile isSpaceCh).reverse.dropWhile isSpaceCh).reverse
  if l.head? = some '+' then (parseDigits l.tail).map (fun n => (n : Int))
  else if l.head? = some '-' then (parseDigits l.tail).map (fun n => -(n : Int))
  else (parseDigits l).map (fun n => (n : Int))

/-- Little-endian decimal digits of `n` (fuel-driven so that the kernel can
evaluate it; the fuel `n` itself always suffices). -/
def natDigitsAux : Nat → Nat → List Nat
  | 0, _ => []
  | fuel + 1, n => if n = 0 then [] else n % 10 :: natDigitsAux fuel (n / 10)

/-- Little-endian decimal digits of `n` (empty for `n = 0`). -/
def natDigitsLE (n : Nat) : List Nat :=
  natDigitsAux n n

/-- Python `str(n)` for a natural number. -/
def natToStr (n : Nat) : String :=
  if n = 0 then "0" else ⟨((natDigitsLE n).reverse).map digitCh⟩

/-- Python `str(n)` for an integer. -/
def intToStr (n : Int) : String :=
  if n < 0 then "-" ++ natToStr n.natAbs else natToStr n.natAbs

/-! ## Association lists: Python dicts with insertion order -/

/-- Python `d[k]` lookup: first (and, for a dict, only) binding of `k`. -/
def lookupA {α : Type} (l : List (String × α)) (k : String) : Option α :=
  match l with
  | [] => none
  | p :: t => if p.1 = k then some p.2 else lookupA t k

/-- Python `d[k] = v`: overwrite the existing binding in place, else append
a new binding at the end (dicts preserve insertion order). -/
def setA {α : Type} (l : List (String × α)) (k : String) (v : α) :
    List (String × α) :=
  match l with
  | [] => [(k, v)]
  | p :: t => if p.1 = k then (k, v) :: t else p :: setA t k v

/-! ## C1: salary parsing (`manipulation.convert_presidents_data._extract_salary`) -/

/-- `_extract_salary` from src/manipulation.py, on a string input:
`base = int(string.split('$')[1].split(',')[0]) * 1000`; if `'expense' in
string` the allowance comes from `split('$')[3]` when the split has more
than 3 pieces, else from `split('$')[2]`.  Index errors and `int()`
failures (exceptions in Python) are embedded as `none`. -/
def extract_salary (s : String) : Option Int := do
  let parts := pySplit s '$'
  let p1 ← parts.get? 1
  let b ← pyInt (pySplit p1 ',').headI
  let base := b * 1000
  if pyContains s "expense" then
    if parts.length > 3 then do
      let p3 ← parts.get? 3
      let e ← pyInt (pySplit p3 ',').headI
      pure (base + e * 1000)
    else do
      let p2 ← parts.get? 2
      let e ← pyInt (pySplit p2 ',').headI
      pure (base + e * 1000)
  else
    pure base

/-- Modelled from the spec's words, for comparison with `extract_salary`:
result = base×1000 + allowance×1000 where the allowance figure is taken from
the *last* dollar-amount in the string (the last `'$'`-piece), and is 0 when
no expense clause is present. -/
def salarySpecLast (s : String) : Option Int := do
  let parts := pySplit s '$'
  let p1 ← parts.get? 1
  let b ← pyInt (pySplit p1 ',').headI
  let base := b * 1000
  if pyContains s "expense" then do
    let pl ← parts.getLast?
    let e ← pyInt (pySplit pl ',').headI
    pure (base + e * 1000)
  else
    pure base

/-! ## C2: vote parsing (`manipulation.convert_elections_data._extract_votes`) -/

/-- Python negative indexing `l[-k]` (`none` = `IndexError`). -/
def pyNegIdx {α : Type} (l : List α) (k : Nat) : Option α :=
  if k ≠ 0 ∧ k ≤ l.length then l.get? (l.length - k) else none

/-- `_extract_votes` from src/manipulation.py, on a string input.  Result
`some (some n)` is a parsed count, `some none` is the missing-value marker
(`np.nan`), and `none` is an uncaught exception. -/
def extract_votes (s : String) : Option (Option Int) :=
  match pyInt s with
  | some n => some (some n)
  | none =>
    if s = "None" ∨ s = "nan" ∨ s = "" then some none
    else if pyContains s "." ∧ pyContains s "," then do
      let dparts := pySplit s '.'
      let dl ← dparts.getLast?
      let u ← pyInt dl
      let d2 ← pyNegIdx dparts 2
      let tl ← (pySplit d2 ',').getLast?
      let t ← pyInt tl
      let m2 ← pyNegIdx (pySplit s ',') 2
      let m ← pyInt m2
      pure (some (m * 1000000 + t * 1000 + u))
    else do
      let cparts := pySplit s ','
      let ul ← cparts.getLast?
      let u ← pyInt ul
      let t2 ← pyNegIdx cparts 2
      let t ← pyInt t2
      let m ← if cparts.length = 3 then do
          let m3 ← pyNegIdx cparts 3
          pyInt m3
        else pure (0 : Int)
      pure (some (m * 1000000 + t * 1000 + u))

/-! ## C6: child count (`manipulation.compute_number_of_children`) -/

/-- Python `s.replace(a, b)` for one-character `a`, `b`. -/
def pyReplaceCh (s : String) (a b : Char) : String :=
  ⟨s.data.map (fun c => if c = a then b else c)⟩

/-- The per-cell map of `compute_number_of_children` from src/manipulation.py:
`0 if x == None else len(x.replace(';', ',').split(','))`.  The cell is
`none` when the children field is absent. -/
def compute_number_of_children (x : Option String) : Nat :=
  match x with
  | none => 0
  | some s => (pySplit (pyReplaceCh s ';' ',') ',').length

/-! ## C3: identifier reconciliation (`PotusScraper.correct_subdirectories`) -/

/-- Python `name.split(' ')[-1]`: the surname token. -/
def surname (s : String) : String :=
  ((pySplit s ' ').getLast?).getD ""

/-- `PotusScraper.correct_subdirectories` from src/scraping.py: pair Miller
keys with POTUS keys in document order, assert equal surnames on every pair
(`none` = `AssertionError`, i.e. `ReconciliationError`), then rebind the
POTUS subdirectory values under the Miller keys. -/
def correct_subdirectories (millerKeys : List String)
    (potusSubdirs : List (String × String)) : Option (List (String × String)) :=
  if (millerKeys.zip (potusSubdirs.map Prod.fst)).all
      (fun p => surname p.1 == surname p.2) then
    some (millerKeys.zip (potusSubdirs.map Prod.snd))
  else
    none

/-! ## C4: the two-non-consecutive-term correction
(`MillerScraper.correct_Grover_Cleveland_data`,
`PotusScraper.duplicate_Grover_Cleveland_salary`) -/

/-- The Miller scraper's per-president record sets (Python dicts, embedded
as insertion-ordered association lists). -/
structure MillerState where
  fast_facts : List (String × List (String × String))
  descriptions : List (String × String)
  famous_quotes : List (String × String)
  key_events_counts : List (String × Int)
deriving DecidableEq

/-- One iteration of the correction loop in
`MillerScraper.correct_Grover_Cleveland_data`: read the double-valued entry
`name` from Grover Cleveland's fact sheet, split it on line breaks, write
piece 1 back under `"Grover Cleveland"` and piece 2 (index 2 for
`"President Number"`, else 3) under `"Grover Cleveland 2"`.  `none` embeds
a `KeyError`/`IndexError`. -/
def splitEntry (ff : List (String × List (String × String))) (name : String) :
    Option (List (String × List (String × String))) := do
  let gcFacts ← lookupA ff "Grover Cleveland"
  let dbl ← lookupA gcFacts name
  let parts := pySplit dbl '\n'
  let e1 ← parts.get? 1
  let e2 ← parts.get? (if name = "President Number" then 2 else 3)
  let ff2 := setA ff "Grover Cleveland" (setA gcFacts name e1)
  let gc2 ← lookupA ff2 "Grover Cleveland 2"
  pure (setA ff2 "Grover Cleveland 2" (setA gc2 name e2))

/-- `MillerScraper.correct_Grover_Cleveland_data` from src/scraping.py:
assert `'Grover Cleveland 2'` is not already a fast-facts key (`none` =
`AssertionError`, i.e. `InvariantViolation` — the assert precedes every
write, so a failed application leaves the state untouched), copy all of
Grover Cleveland's records under the new identifier, then split the three
double-valued entries between the two terms. -/
def correct_Grover_Cleveland_data (st : MillerState) : Option MillerState := do
  if (lookupA st.fast_facts "Grover Cleveland 2").isSome then none
  else do
    let gc ← lookupA st.fast_facts "Grover Cleveland"
    let ff0 := setA st.fast_facts "Grover Cleveland 2" gc
    let d ← lookupA st.descriptions "Grover Cleveland"
    let ds := setA st.descriptions "Grover Cleveland 2" d
    let q ← lookupA st.famous_quotes "Grover Cleveland"
    let qs := setA st.famous_quotes "Grover Cleveland 2" q
    let k ← lookupA st.key_events_counts "Grover Cleveland"
    let ks := setA st.key_events_counts "Grover Cleveland 2" k
    let ff1 ← splitEntry ff0 "Inauguration Date"
    let ff2 ← splitEntry ff1 "Date Ended"
    let ff3 ← splitEntry ff2 "President Number"
    pure ⟨ff3, ds, qs, ks⟩

/-- `PotusScraper.duplicate_Grover_Cleveland_salary` from src/scraping.py:
assert the disambiguated identifier is absent, then record the same salary
under it. -/
def duplicate_Grover_Cleveland_salary (salaries : List (String × String)) :
    Option (List (String × String)) := do
  if (lookupA salaries "Grover Cleveland 2").isSome then none
  else do
    let s ← lookupA salaries "Grover Cleveland"
    pure (setA salaries "Grover Cleveland 2" s)

/-- A concrete pre-correction Miller state for the witness. -/
def stC4 : MillerState :=
  ⟨[("Grover Cleveland",
      [("Inauguration Date", "\nMarch 4, 1885\n\nMarch 4, 1893"),
       ("Date Ended", "\nMarch 4, 1889\n\nMarch 4, 1897"),
       ("President Number", "\n22\n24")])],
   [("Grover Cleveland", "d")],
   [("Grover Cleveland", "q")],
   [("Grover Cleveland", 7)]⟩

/-- The state `correct_Grover_Cleveland_data` produces from `stC4`. -/
def stC4' : MillerState :=
  ⟨[("Grover Cleveland",
      [("Inauguration Date", "March 4, 1885"),
       ("Date Ended", "March 4, 1889"),
       ("President Number", "22")]),
    ("Grover Cleveland 2",
      [("Inauguration Date", "March 4, 1893"),
       ("Date Ended", "March 4, 1897"),
       ("President Number", "24")])],
   [("Grover Cleveland", "d"), ("Grover Cleveland 2", "d")],
   [("Grover Cleveland", "q"), ("Grover Cleveland 2", "q")],
   [("Grover Cleveland", 7), ("Grover Cleveland 2", 7)]⟩

/-! ## C8: key-events counts (`MillerScraper.get_key_events_counts`) -/

/-- Inline elements of a key-events article body that matter to the counter:
`strong` tags, `b` tags, and anything else. -/
inductive InlineTag
  | strongTag
  | bTag
  | otherTag
deriving DecidableEq

/-- The per-president body of `MillerScraper.get_key_events_counts`:
`soup.find('div', ...)` is `none` when the article body is absent, in which
case `find_all` raises `AttributeError` and the `except` branch yields 0;
otherwise the count is `len(find_all('strong')) + len(find_all('b'))`. -/
def get_key_events_count (body : Option (List InlineTag)) : Nat :=
  (body.map (fun l =>
    (l.filter (fun x => x = InlineTag.strongTag)).length
      + (l.filter (fun x => x = InlineTag.bTag)).length)).getD 0

/-- The whole loop of `MillerScraper.get_key_events_counts`: one count per
(president, optional article body) page. -/
def get_key_events_counts
    (pages : List (String × Option (List InlineTag))) : List (String × Nat) :=
  pages.map (fun p => (p.1, get_key_events_count p.2))

/-! ## C9: the record merger (`manipulation.get_all_presidents_data_df`) -/

/-- One row of the merged entity table. -/
structure PresRow where
  facts : List (String × String)
  description : String
  famous_quote : String
  key_events_count : Int
  salary : String
deriving DecidableEq

/-- `List.mapM` specialised to `Option`, evaluating left to right and
failing at the first `none` — the shape of a Python loop that raises on
the first missing key. -/
def mapOptM {α β : Type} (f : α → Option β) : List α → Option (List β)
  | [] => some []
  | a :: t => do
    let b ← f a
    let r ← mapOptM f t
    pure (b :: r)

/-- `manipulation.get_all_presidents_data_df`: one merged row per Miller
fast-facts key, joining the four Source-A record families with the POTUS
salary; a missing key in any of the five dicts is a `KeyError` (`none`). -/
def get_all_presidents_data_df (m : MillerState)
    (salaries : List (String × String)) : Option (List (String × PresRow)) :=
  mapOptM (fun pr => do
      let d ← lookupA m.descriptions pr.1
      let q ← lookupA m.famous_quotes pr.1
      let k ← lookupA m.key_events_counts pr.1
      let s ← lookupA salaries pr.1
      pure (pr.1, PresRow.mk pr.2 d q k s))
    m.fast_facts

/-! ## C10: election-results extraction (`PotusScraper.get_election_results`) -/

/-- One `tr` of an election-results table: the candidate-name cell
(`td.column-2 > a`, absent on header/spacer rows) and the `td.column-3` /
`td.column-4` text cells (absent cells raise `AttributeError`). -/
structure ERow where
  nameCell : Option String
  col3 : Option String
  col4 : Option String
deriving DecidableEq

/-- One election-results table: the year from its labeled header row, and
its rows. -/
structure ETable where
  year : String
  rows : List ERow
deriving DecidableEq

/-- One president page of `PotusScraper.get_election_results`: the `th`
count of the section's first header row (3-column vs 4-column layout) and
the contained tables. -/
structure EPage where
  headerThCount : Nat
  tables : List ETable
deriving DecidableEq

/-- A candidate's leaf in the election-results mapping: `none` is the empty
dict left behind when a vote cell raised `AttributeError` after the name
was recorded; `some (popular, electoral)` is a completed leaf (popular is
`None` for the 3-column layout). -/
abbrev ELeaf : Type := Option (Option String × String)

/-- The body of the per-row `try` block of
`PotusScraper.get_election_results`: a row without a candidate-name cell is
skipped (`AttributeError` on the name lookup); otherwise the name is keyed
with an empty leaf, then completed from the vote cells unless one of them
raises. -/
def processRow (thCount : Nat) (acc : List (String × ELeaf)) (row : ERow) :
    List (String × ELeaf) :=
  match row.nameCell with
  | none => acc
  | some nm =>
    let acc1 := setA acc nm none
    if thCount = 3 then
      match row.col3 with
      | none => acc1
      | some ev => setA acc1 nm (some (none, ev))
    else
      match row.col3 with
      | none => acc1
      | some pv =>
        match row.col4 with
        | none => acc1
        | some ev => setA acc1 nm (some (some pv, ev))

/-- The year entry built from one table, starting from the reset
`election_results[year] = {}`. -/
def tableEntry (thCount : Nat) (t : ETable) : List (String × ELeaf) :=
  t.rows.foldl (processRow thCount) []

/-- `PotusScraper.get_election_results`: fold over all president pages and
their tables; each table first resets its year's entry to the empty dict
and then populates it from its own rows only, so writing the completed
`tableEntry` in one step is the same state update the Python loop makes. -/
def get_election_results (pages : List EPage) :
    List (String × List (String × ELeaf)) :=
  pages.foldl
    (fun res pg =>
      pg.tables.foldl
        (fun r tb => setA r tb.year (tableEntry pg.headerThCount tb)) res)
    []

/-- All (header-count, table) pairs of a run, in processing order. -/
def flatTables (pages : List EPage) : List (Nat × ETable) :=
  (pages.map (fun pg => pg.tables.map (fun t => (pg.headerThCount, t)))).flatten

/-! ## C5: electoral vote share (`manipulation.compute_first_electoral_vote_share`) -/

/-- The (already index-corrected) Election Results Table: one row of cells
per candidate and one `(year, metric)` label per column; a cell holds
`none` for `NaN` (missing).  Rectangular by construction in pandas. -/
structure ElectionsTable where
  rows : List (String × List (Option Int))
  cols : List (String × String)
deriving DecidableEq

/-- pandas `df.loc[row_label, column_label]`: `none` embeds the `KeyError`
raised when the row label or the column label is absent; `some cell` is the
stored cell, itself possibly the missing marker. -/
def locCell (t : ElectionsTable) (p : String) (c : String × String) :
    Option (Option Int) := do
  let cells ← lookupA t.rows p
  let i ← t.cols.findIdx? (fun x => x == c)
  cells.get? i

/-- One column's entry of `sums_of_votes = elections_data.sum()`: the sum of
the column's present cells (pandas `sum` skips `NaN`). -/
def colSum (t : ElectionsTable) (c : String × String) : Int :=
  match t.cols.findIdx? (fun x => x == c) with
  | none => 0
  | some i => (t.rows.map (fun r => ((r.2.get? i).bind id).getD 0)).sum

/-- A numpy/pandas float as the share computation can produce it: a finite
value (idealized as a rational), positive or negative infinity, or `NaN` —
which doubles as pandas' missing-value marker. -/
inductive PyFloat
  | val (q : ℚ)
  | pinf
  | ninf
  | nan
deriving DecidableEq

/-- numpy float division `n / s`: a finite quotient when `s ≠ 0`, else
`inf` / `-inf` / `NaN` according to the sign of the numerator (`5/0 = inf`,
`-5/0 = -inf`, `0/0 = nan`). -/
def pyDivFloat (n s : Int) : PyFloat :=
  if s ≠ 0 then PyFloat.val ((n : ℚ) / (s : ℚ))
  else if 0 < n then PyFloat.pinf
  else if n < 0 then PyFloat.ninf
  else PyFloat.nan

/-- Division of a looked-up cell by a column total: a missing (`NaN`)
numerator propagates (`NaN / s = NaN`); a present numerator divides per
numpy float semantics. -/
def divCell (v : Option Int) (s : Int) : PyFloat :=
  match v with
  | none => PyFloat.nan
  | some n => pyDivFloat n s

/-- The per-president body of `manipulation.compute_first_electoral_vote_share`
(`year` is the president's inauguration year): try the `(year-1, Electoral
Votes)` cell, on `KeyError` retry with `(year, Electoral Votes)`, on a second
`KeyError` assign the missing marker (`np.nan`).  The looked-up cell is
divided by that column's entry of `sums_of_votes` with numpy float
semantics: a `NaN` cell propagates, and a zero total yields `inf` for a
positive numerator. -/
def compute_first_electoral_vote_share (t : ElectionsTable) (p : String)
    (year : Int) : PyFloat :=
  let c1 : String × String := (intToStr (year - 1), "Electoral Votes")
  match locCell t p c1 with
  | some v => divCell v (colSum t c1)
  | none =>
    let c2 : String × String := (intToStr year, "Electoral Votes")
    match locCell t p c2 with
    | some v => divCell v (colSum t c2)
    | none => PyFloat.nan

/-- A concrete elections table for the C5 witness: a single election year
1840, as in the real table where consecutive years never both occur. -/
def tC5 : ElectionsTable :=
  ⟨[("A", [some 3]), ("B", [some 1])], [("1840", "Electoral Votes")]⟩

/-! ## C7: the Type Normalizer (`manipulation.convert_presidents_data`, `manipulation.convert_elections_data`) -/

/-- A pandas cell value as the Type Normalizer sees it.  `pfloat n` is a
whole-valued float64 (the upcast of an int64 in a column that also holds
`NaN`); `pnone` is Python `None`, `pnan` is `np.nan`, `pnat` is `pd.NaT`,
and `pts` is a `pd.Timestamp` abstracted by its epoch value. -/
inductive PVal
  | pstr (s : String)
  | pint (n : Int)
  | pfloat (n : Int)
  | pnone
  | pnan
  | pnat
  | pts (n : Int)
deriving DecidableEq

/-- Python `str(...)` on a cell.  `str` of a whole float prints a trailing
`.0`; `str(None) = 'None'`, `str(np.nan) = 'nan'`, `str(pd.NaT) = 'NaT'`.
The rendering of a `Timestamp` is abstracted (no string column ever holds
one in this pipeline). -/
def pyStr : PVal → String
  | .pstr s => s
  | .pint n => intToStr n
  | .pfloat n => intToStr n ++ ".0"
  | .pnone => "None"
  | .pnan => "nan"
  | .pnat => "NaT"
  | .pts n => "Timestamp(" ++ intToStr n ++ ")"

/-- The merged presidents table: named columns of cells.  Column dtype
upcasting is modeled only for the elections table, where it changes the
re-normalization behaviour; in the presidents table no normalized column
mixes ints with missing values without already failing. -/
structure PresTable where
  cols : List (String × List PVal)
deriving DecidableEq

/-- `STR_VARIABLES` of `manipulation.convert_presidents_data`. -/
def STR_VARIABLES : List String :=
  ["Birth Place", "Burial Place", "Career", "Children", "Description",
   "Education", "Famous Quote", "Full Name", "Marriage", "Nickname",
   "Political Party", "Religion"]

/-- `INT_VARIABLES` of `manipulation.convert_presidents_data`. -/
def INT_VARIABLES : List String :=
  ["Key Events Count", "President Number", "Salary"]

/-- `TIMESTAMP_VARIABLES` of `manipulation.convert_presidents_data`. -/
def TIMESTAMP_VARIABLES : List String :=
  ["Birth Date", "Date Ended", "Death Date", "Inauguration Date"]

/-- The per-cell composite of the two string-column passes:
`map(str)` then `None if x in {'None', 'nan'} else x`. -/
def strConv (v : PVal) : PVal :=
  let s := pyStr v
  if s = "None" ∨ s = "nan" then PVal.pnone else PVal.pstr s

/-- Python `int(x)` on a cell: parses decimal strings, keeps ints,
truncates floats (whole-valued here); `None`, `NaN`, `NaT` and timestamps
raise (`none`). -/
def pyIntFn (v : PVal) : Option PVal :=
  match v with
  | .pstr s => (pyInt s).map PVal.pint
  | .pint n => some (PVal.pint n)
  | .pfloat n => some (PVal.pint n)
  | _ => none

/-- The per-cell salary pass: `_extract_salary` parses a string and returns
any non-string unchanged. -/
def salaryConv (v : PVal) : Option PVal :=
  match v with
  | .pstr s => (extract_salary s).map PVal.pint
  | w => some w

/-- `pd.Timestamp(x)` on a cell, with the date-string parser abstracted as
`parse`: a `Timestamp` maps to itself, numbers to epoch stamps, `None`,
`np.nan` and `pd.NaT` to `NaT`. -/
def tsConv (parse : String → Option Int) (v : PVal) : Option PVal :=
  match v with
  | .pstr s => (parse s).map PVal.pts
  | .pint n => some (PVal.pts n)
  | .pfloat n => some (PVal.pts n)
  | .pts n => some (PVal.pts n)
  | .pnone => some PVal.pnat
  | .pnan => some PVal.pnat
  | .pnat => some PVal.pnat

/-- One column of `manipulation.convert_presidents_data`: the converter is
selected by which of the three literal name sets the column belongs to
(columns in none of them are untouched). -/
def convertCol (parse : String → Option Int) (name : String)
    (cells : List PVal) : Option (List PVal) :=
  if name ∈ STR_VARIABLES then some (cells.map strConv)
  else if name ∈ INT_VARIABLES then
    if name = "Salary" then mapOptM salaryConv cells
    else mapOptM pyIntFn cells
  else if name ∈ TIMESTAMP_VARIABLES then mapOptM (tsConv parse) cells
  else some cells

/-- `manipulation.convert_presidents_data`, column-wise over the merged
table (the column passes are independent, so set iteration order does not
matter). -/
def convert_presidents_data (parse : String → Option Int) (t : PresTable) :
    Option PresTable :=
  (mapOptM (fun c => (convertCol parse c.1 c.2).map (fun cells => (c.1, cells)))
    t.cols).map PresTable.mk

/-- `pnan` test. -/
def isNanCell : PVal → Bool
  | .pnan => true
  | _ => false

/-- `pint` test. -/
def isIntCell : PVal → Bool
  | .pint _ => true
  | _ => false

/-- The per-cell composite of `applymap(str)` and
`applymap(_extract_votes)` in `manipulation.convert_elections_data`:
a parsed count becomes an int64 cell, the missing marker `np.nan`. -/
def votesCellConv (v : PVal) : Option PVal :=
  (extract_votes (pyStr v)).map (fun r =>
    match r with
    | none => PVal.pnan
    | some n => PVal.pint n)

/-- pandas per-column dtype inference after `applymap`: a column holding
both int64 cells and `NaN` is upcast to float64 (ints become whole
floats); otherwise the column is left as is. -/
def inferCol (l : List PVal) : List PVal :=
  if l.any isNanCell ∧ l.any isIntCell then
    l.map (fun v =>
      match v with
      | .pint n => PVal.pfloat n
      | w => w)
  else l

/-- `manipulation.convert_elections_data` over the election table's
columns (one list of cells per `(year, metric)` column — `applymap` is
elementwise and dtype inference is per column). -/
def convert_elections_data (t : List (List PVal)) :
    Option (List (List PVal)) :=
  mapOptM (fun col => (mapOptM votesCellConv col).map inferCol) t

/-- Little-endian decimal value, the inverse of `natDigitsLE`. -/
def ofDigitsLE : List Nat → Nat
  | [] => 0
  | d :: ds => d + 10 * ofDigitsLE ds

/-! ## Association-list lemmas -/

theorem lookupA_setA_self {α : Type} (l : List (String × α)) (k : String)
    (v : α) : lookupA (setA l k v) k = some v := by
  induction l with
  | nil => simp [setA, lookupA]
  | cons p t ih =>
    by_cases h : p.1 = k <;> simp [setA, lookupA, h, ih]

theorem lookupA_setA_ne {α : Type} (l : List (String × α)) (k k' : String)
    (v : α) (h : k' ≠ k) : lookupA (setA l k v) k' = lookupA l k' := by
  induction l with
  | nil => simp [setA, lookupA, Ne.symm h]
  | cons p t ih =>
    by_cases hp : p.1 = k
    · simp [setA, lookupA, hp, Ne.symm h]
    · simp [setA, lookupA, hp, ih]

theorem setA_of_lookup_none {α : Type} (l : List (String × α)) (k : String)
    (v : α) (h : lookupA l k = none) : setA l k v = l ++ [(k, v)] := by
  induction l with
  | nil => simp [setA]
  | cons p t ih =>
    simp only [lookupA] at h
    by_cases hp : p.1 = k
    · simp [hp] at h
    · simp only [setA, hp, if_neg hp]
      simp only [hp, if_neg hp] at h
      simp [ih h]

theorem map_fst_setA_of_mem {α : Type} (l : List (String × α)) (k : String)
    (v : α) (h : (lookupA l k).isSome) :
    (setA l k v).map Prod.fst = l.map Prod.fst := by
  induction l with
  | nil => simp [lookupA] at h
  | cons p t ih =>
    by_cases hp : p.1 = k
    · simp [setA, hp]
    · simp only [lookupA, hp, if_neg hp] at h
      simp [setA, hp, ih h]

theorem lookupA_isSome_iff {α : Type} (l : List (String × α)) (k : String) :
    (lookupA l k).isSome ↔ k ∈ l.map Prod.fst := by
  induction l with
  | nil => simp [lookupA]
  | cons p t ih =>
    by_cases hp : p.1 = k <;> simp [lookupA, hp, ih]
    exact fun h => absurd h.symm hp

/-! ## Basic lemmas about the string utilities -/

theorem splitChars_ne_nil (sep : Char) (l : List Char) : splitChars sep l ≠ [] := by
  induction l with
  | nil => simp [splitChars]
  | cons c cs ih =>
    simp only [splitChars]
    rcases h : splitChars sep cs with _ | ⟨g, gs⟩
    · exact absurd h ih
    · by_cases hc : c = sep <;> simp [hc]

theorem pySplit_ne_nil (s : String) (sep : Char) : pySplit s sep ≠ [] := by
  simp [pySplit, splitChars_ne_nil]

/-! ## C1 -/

/-- C1 (amended): the salary normalizer returns base×1000 + allowance×1000
with allowance 0 when no expense clause is present, and the expense figure
is the last dollar-amount *when the string contains at most three dollar
amounts* (at most four `'$'`-split pieces); the two cited examples parse to
450000 and 400000.  (With four or more dollar amounts the code reads the
third amount, not the last — see the counterexample.) -/
theorem salary_parse_amended :
    extract_salary
        "He earned a salary of $400,000 per year, plus a $50,000 expense account."
      = some 450000 ∧
    extract_salary "He earned a salary of $400,000 per year." = some 400000 ∧
    ∀ s : String, (pySplit s '$').length = 3 ∨ (pySplit s '$').length = 4 →
      extract_salary s = salarySpecLast s := by
  refine ⟨by decide, by decide, ?_⟩
  intro s hlen
  simp only [extract_salary, salarySpecLast]
  rcases h : pySplit s '$' with _ | ⟨a, _ | ⟨b, _ | ⟨c, _ | ⟨d, t⟩⟩⟩⟩ <;>
    rw [h] at hlen <;> simp at hlen
  · by_cases hc : pyContains s "expense" = true <;> simp [hc]
  · subst hlen
    by_cases hc : pyContains s "expense" = true <;> simp [hc]

/-- C1 (witness): the amended equation instantiated at the first cited
example string. -/
theorem salary_parse_amended_witness :
    ((pySplit
        "He earned a salary of $400,000 per year, plus a $50,000 expense account."
        '$').length = 3 ∨
      (pySplit
        "He earned a salary of $400,000 per year, plus a $50,000 expense account."
        '$').length = 4) ∧
    extract_salary
        "He earned a salary of $400,000 per year, plus a $50,000 expense account."
      = salarySpecLast
        "He earned a salary of $400,000 per year, plus a $50,000 expense account." :=
  ⟨by decide, salary_parse_amended.2.2 _ (by decide)⟩

/-- C1 (counterexample): on a salary string of the stated form holding four
dollar amounts, the code takes the third amount ($2,000), not the last one
($50,000): it returns 102000 where the claim's last-amount rule demands
150000. -/
theorem salary_parse_counterexample :
    extract_salary
        "He earned a salary of $100,000 per year, a $1,000 bonus and $2,000 gifts, plus a $50,000 expense account."
      = some 102000 ∧
    salarySpecLast
        "He earned a salary of $100,000 per year, a $1,000 bonus and $2,000 gifts, plus a $50,000 expense account."
      = some 150000 ∧
    (some 102000 : Option Int) ≠ some 150000 :=
  ⟨by decide, by decide, by decide⟩

/-! ## C2 -/

/-- C2 (amended): the vote normalizer parses a plain integer whenever Python
`int` accepts the cell; `"1,234,567"` parses to 1234567; the dot/comma
anomaly the code handles is a *trailing* dot group with the comma in the
millions position, `"1,234.567"` → 1234567; and `"None"`, `"nan"` and the
empty cell map to the missing-value marker, never 0.  (A leading-dot string
such as `"1.234,567"` instead raises — see the counterexample.) -/
theorem votes_parse_amended :
    (∀ (s : String) (n : Int), pyInt s = some n → extract_votes s = some (some n)) ∧
    extract_votes "42" = some (some 42) ∧
    extract_votes "1,234,567" = some (some 1234567) ∧
    extract_votes "1,234.567" = some (some 1234567) ∧
    extract_votes "None" = some none ∧
    extract_votes "nan" = some none ∧
    extract_votes "" = some none := by
  refine ⟨?_, by decide, by decide, by decide, by decide, by decide, by decide⟩
  intro s n h
  simp [extract_votes, h]

/-- C2 (witness): the plain-integer clause instantiated at `"42"`. -/
theorem votes_parse_amended_witness :
    pyInt "42" = some 42 ∧ extract_votes "42" = some (some 42) :=
  ⟨by decide, votes_parse_amended.1 "42" 42 (by decide)⟩

/-- C2 (counterexample): on `"1.234,567"` the code raises an uncaught
`ValueError` (embedded as `none`) instead of producing 1234567 as the claim
states: the dot is split first and `int("234,567")` fails. -/
theorem votes_parse_counterexample :
    extract_votes "1.234,567" = none ∧
    (none : Option (Option Int)) ≠ some (some 1234567) :=
  ⟨by decide, by decide⟩

/-! ## C6 -/

/-- C6 (amended): the child-count derivation returns the number of
comma/semicolon-delimited tokens after normalizing semicolons to commas
(`"Anne; Susan, Martha"` → 3) and returns 0 when the children field is
absent; a present but *empty* field yields 1 (the single empty token),
never 0, so the count is at least 1 for every present field. -/
theorem children_count_amended :
    compute_number_of_children none = 0 ∧
    compute_number_of_children (some "Anne; Susan, Martha") = 3 ∧
    compute_number_of_children (some "") = 1 ∧
    ∀ s : String, 1 ≤ compute_number_of_children (some s) := by
  refine ⟨rfl, by decide, by decide, ?_⟩
  intro s
  have h := pySplit_ne_nil (pyReplaceCh s ';' ',') ','
  simp only [compute_number_of_children]
  exact List.length_pos.mpr h

/-- C6 (witness): the at-least-one clause instantiated at `"Anne"`. -/
theorem children_count_amended_witness :
    1 ≤ compute_number_of_children (some "Anne") :=
  children_count_amended.2.2.2 "Anne"

/-- C6 (counterexample): an empty (but present) children field yields 1,
not 0 as the claim states. -/
theorem children_count_counterexample :
    compute_number_of_children (some "") = 1 ∧ (1 : Nat) ≠ 0 :=
  ⟨by decide, by decide⟩

/-! ## C3 -/

/-- C3: whenever identifier reconciliation succeeds, the produced mapping
rebinds the i-th Source-B subdirectory value under the i-th Source-A
identifier, and every paired (Source-A identifier, Source-B raw identifier)
has equal surname tokens; reconciliation fails (`ReconciliationError`,
embedded as `none`) as soon as any pair's surname tokens differ. -/
theorem reconcile_surname_invariant (mk : List String)
    (ps : List (String × String)) :
    (∀ res, correct_subdirectories mk ps = some res →
      res = mk.zip (ps.map Prod.snd) ∧
      ∀ p ∈ mk.zip (ps.map Prod.fst), surname p.1 = surname p.2) ∧
    ((∃ p ∈ mk.zip (ps.map Prod.fst), surname p.1 ≠ surname p.2) →
      correct_subdirectories mk ps = none) := by
  constructor
  · intro res hres
    simp only [correct_subdirectories] at hres
    split at hres
    · rename_i hall
      refine ⟨by simpa using hres.symm, ?_⟩
      intro p hp
      have := List.all_eq_true.mp hall p hp
      simpa using this
    · exact absurd hres (by simp)
  · rintro ⟨p, hp, hne⟩
    simp only [correct_subdirectories]
    split
    · rename_i hall
      have := List.all_eq_true.mp hall p hp
      simp at this
      exact absurd this hne
    · rfl

/-- C3 (witness): reconciliation applied to a concrete two-entity listing
whose surnames match positionally. -/
theorem reconcile_surname_invariant_witness :
    ([("George Washington", "washington/"), ("John Adams", "adams/")] :
        List (String × String))
      = ["George Washington", "John Adams"].zip
          ([("President George Washington", "washington/"),
            ("President John Adams", "adams/")].map Prod.snd) ∧
    ∀ p ∈ ["George Washington", "John Adams"].zip
        ([("President George Washington", "washington/"),
          ("President John Adams", "adams/")].map Prod.fst),
      surname p.1 = surname p.2 :=
  (reconcile_surname_invariant ["George Washington", "John Adams"]
      [("President George Washington", "washington/"),
       ("President John Adams", "adams/")]).1
    [("George Washington", "washington/"), ("John Adams", "adams/")]
    (by decide)

theorem lookupA_setA {α : Type} (l : List (String × α)) (k k' : String)
    (v : α) : lookupA (setA l k v) k' = if k' = k then some v else lookupA l k' := by
  by_cases h : k' = k
  · simp [h, lookupA_setA_self]
  · simp [h, lookupA_setA_ne l k k' v h]

theorem splitEntry_keys (ff : List (String × List (String × String)))
    (name : String) (ff' : List (String × List (String × String)))
    (h : splitEntry ff name = some ff') :
    ff'.map Prod.fst = ff.map Prod.fst := by
  simp only [splitEntry, Option.bind_eq_bind, Option.bind_eq_some, Option.pure_def,
    Option.some.injEq] at h
  obtain ⟨gcFacts, hgc, dbl, hdbl, e1, he1, e2, he2, gc2, hgc2, hff⟩ := h
  subst hff
  rw [map_fst_setA_of_mem _ _ _ (by simp [hgc2]),
    map_fst_setA_of_mem _ _ _ (by simp [hgc])]

theorem splitEntry_lookup_GC (ff : List (String × List (String × String)))
    (name : String) (ff' : List (String × List (String × String)))
    (h : splitEntry ff name = some ff') (m : String) :
    (lookupA ff' "Grover Cleveland").bind (fun f => lookupA f m) =
      if m = name then
        ((lookupA ff "Grover Cleveland").bind (fun f => lookupA f name)).bind
          (fun d => (pySplit d '\n').get? 1)
      else (lookupA ff "Grover Cleveland").bind (fun f => lookupA f m) := by
  simp only [splitEntry, Option.bind_eq_bind, Option.bind_eq_some, Option.pure_def,
    Option.some.injEq] at h
  obtain ⟨gcFacts, hgc, dbl, hdbl, e1, he1, e2, he2, gc2, hgc2, hff⟩ := h
  subst hff
  rw [List.get?_eq_getElem?] at he1 he2
  rw [lookupA_setA, if_neg (by decide), lookupA_setA, if_pos rfl]
  simp only [Option.some_bind, hgc, hdbl]
  rw [lookupA_setA]
  by_cases hm : m = name
  · simp [hm, hdbl, he1]
  · simp [hm]

theorem splitEntry_lookup_GC2 (ff : List (String × List (String × String)))
    (name : String) (ff' : List (String × List (String × String)))
    (h : splitEntry ff name = some ff') (m : String) :
    (lookupA ff' "Grover Cleveland 2").bind (fun f => lookupA f m) =
      if m = name then
        ((lookupA ff "Grover Cleveland").bind (fun f => lookupA f name)).bind
          (fun d => (pySplit d '\n').get?
            (if name = "President Number" then 2 else 3))
      else (lookupA ff "Grover Cleveland 2").bind (fun f => lookupA f m) := by
  simp only [splitEntry, Option.bind_eq_bind, Option.bind_eq_some, Option.pure_def,
    Option.some.injEq] at h
  obtain ⟨gcFacts, hgc, dbl, hdbl, e1, he1, e2, he2, gc2, hgc2, hff⟩ := h
  subst hff
  rw [List.get?_eq_getElem?] at he1 he2
  rw [lookupA_setA, if_pos rfl]
  rw [lookupA_setA, if_neg (by decide)] at hgc2
  simp only [Option.some_bind, hgc, hdbl, hgc2]
  rw [lookupA_setA]
  by_cases hm : m = name
  · simp [hm, he2]
  · simp [hm]



theorem cleveland_correction (st st' : MillerState)
    (h : correct_Grover_Cleveland_data st = some st') :
    st'.fast_facts.map Prod.fst
        = st.fast_facts.map Prod.fst ++ ["Grover Cleveland 2"] ∧
    st'.fast_facts.length = st.fast_facts.length + 1 ∧
    (∀ name ∈ ["Inauguration Date", "Date Ended", "President Number"],
      ((lookupA st'.fast_facts "Grover Cleveland").bind fun f => lookupA f name)
          = (((lookupA st.fast_facts "Grover Cleveland").bind fun f =>
              lookupA f name).bind fun d => (pySplit d '\n').get? 1) ∧
      ((lookupA st'.fast_facts "Grover Cleveland 2").bind fun f => lookupA f name)
          = (((lookupA st.fast_facts "Grover Cleveland").bind fun f =>
              lookupA f name).bind fun d => (pySplit d '\n').get?
                (if name = "President Number" then 2 else 3))) ∧
    lookupA st'.descriptions "Grover Cleveland 2"
        = lookupA st.descriptions "Grover Cleveland" ∧
    lookupA st'.famous_quotes "Grover Cleveland 2"
        = lookupA st.famous_quotes "Grover Cleveland" ∧
    lookupA st'.key_events_counts "Grover Cleveland 2"
        = lookupA st.key_events_counts "Grover Cleveland" ∧
    correct_Grover_Cleveland_data st' = none ∧
    ∀ sal sal', duplicate_Grover_Cleveland_salary sal = some sal' →
      sal'.map Prod.fst = sal.map Prod.fst ++ ["Grover Cleveland 2"] ∧
      lookupA sal' "Grover Cleveland 2" = lookupA sal "Grover Cleveland" ∧
      duplicate_Grover_Cleveland_salary sal' = none := by
  simp only [correct_Grover_Cleveland_data] at h
  split at h
  · exact absurd h (by simp)
  · rename_i hguard
    rw [Option.not_isSome_iff_eq_none] at hguard
    simp only [Option.bind_eq_bind, Option.bind_eq_some, Option.pure_def,
      Option.some.injEq] at h
    obtain ⟨gc, hgc, d, hd, q, hq, k, hk, ff1, hff1, ff2, hff2, ff3, hff3, hst⟩ := h
    subst hst
    have hkeys : ff3.map Prod.fst
        = st.fast_facts.map Prod.fst ++ ["Grover Cleveland 2"] := by
      rw [splitEntry_keys _ _ _ hff3, splitEntry_keys _ _ _ hff2,
        splitEntry_keys _ _ _ hff1, setA_of_lookup_none _ _ _ hguard]
      simp
    refine ⟨hkeys, ?_, ?_, by simp [lookupA_setA_self, hd],
      by simp [lookupA_setA_self, hq], by simp [lookupA_setA_self, hk], ?_, ?_⟩
    · have := congrArg List.length hkeys
      simpa using this
    · intro name hname
      fin_cases hname
      · constructor
        · rw [show (⟨ff3, _, _, _⟩ : MillerState).fast_facts = ff3 from rfl]
          rw [splitEntry_lookup_GC _ _ _ hff3, if_neg (by decide),
            splitEntry_lookup_GC _ _ _ hff2, if_neg (by decide),
            splitEntry_lookup_GC _ _ _ hff1, if_pos rfl,
            lookupA_setA, if_neg (by decide)]
        · rw [show (⟨ff3, _, _, _⟩ : MillerState).fast_facts = ff3 from rfl]
          rw [splitEntry_lookup_GC2 _ _ _ hff3, if_neg (by decide),
            splitEntry_lookup_GC2 _ _ _ hff2, if_neg (by decide),
            splitEntry_lookup_GC2 _ _ _ hff1, if_pos rfl,
            lookupA_setA, if_neg (by decide)]
      · constructor
        · rw [show (⟨ff3, _, _, _⟩ : MillerState).fast_facts = ff3 from rfl]
          rw [splitEntry_lookup_GC _ _ _ hff3, if_neg (by decide),
            splitEntry_lookup_GC _ _ _ hff2, if_pos rfl,
            splitEntry_lookup_GC _ _ _ hff1, if_neg (by decide),
            lookupA_setA, if_neg (by decide)]
        · rw [show (⟨ff3, _, _, _⟩ : MillerState).fast_facts = ff3 from rfl]
          rw [splitEntry_lookup_GC2 _ _ _ hff3, if_neg (by decide),
            splitEntry_lookup_GC2 _ _ _ hff2, if_pos rfl,
            splitEntry_lookup_GC _ _ _ hff1, if_neg (by decide),
            lookupA_setA, if_neg (by decide)]
      · constructor
        · rw [show (⟨ff3, _, _, _⟩ : MillerState).fast_facts = ff3 from rfl]
          rw [splitEntry_lookup_GC _ _ _ hff3, if_pos rfl,
            splitEntry_lookup_GC _ _ _ hff2, if_neg (by decide),
            splitEntry_lookup_GC _ _ _ hff1, if_neg (by decide),
            lookupA_setA, if_neg (by decide)]
        · rw [show (⟨ff3, _, _, _⟩ : MillerState).fast_facts = ff3 from rfl]
          rw [splitEntry_lookup_GC2 _ _ _ hff3, if_pos rfl,
            splitEntry_lookup_GC _ _ _ hff2, if_neg (by decide),
            splitEntry_lookup_GC _ _ _ hff1, if_neg (by decide),
            lookupA_setA, if_neg (by decide)]
    · have hmem : "Grover Cleveland 2" ∈ ff3.map Prod.fst := by
        rw [hkeys]; simp
      have hsome := (lookupA_isSome_iff ff3 "Grover Cleveland 2").mpr hmem
      simp only [correct_Grover_Cleveland_data]
      simp [hsome]
    · intro sal sal' hs
      simp only [duplicate_Grover_Cleveland_salary] at hs
      split at hs
      · exact absurd hs (by simp)
      · rename_i hg
        rw [Option.not_isSome_iff_eq_none] at hg
        simp only [Option.bind_eq_bind, Option.bind_eq_some, Option.pure_def,
          Option.some.injEq] at hs
        obtain ⟨v, hv, hset⟩ := hs
        subst hset
        refine ⟨by rw [setA_of_lookup_none _ _ _ hg]; simp, ?_, ?_⟩
        · rw [lookupA_setA_self, hv]
        · simp only [duplicate_Grover_Cleveland_salary]
          simp [lookupA_setA_self]

theorem cleveland_correction_witness :
    stC4'.fast_facts.length = stC4.fast_facts.length + 1 ∧
    correct_Grover_Cleveland_data stC4' = none := by
  have h := cleveland_correction stC4 stC4' (by decide)
  exact ⟨h.2.1, h.2.2.2.2.2.2.1⟩

/-! ## C8 theorem -/

/-- C8: when a key-events page has no article body the extracted count is 0
rather than an error; when the body is present the count is the number of
`strong` elements plus the number of `b` elements; and the per-president
loop records exactly that value for every page. -/
theorem key_events_absent_body :
    get_key_events_count none = 0 ∧
    (∀ l : List InlineTag, get_key_events_count (some l) =
      (l.filter (fun x => x = InlineTag.strongTag)).length
        + (l.filter (fun x => x = InlineTag.bTag)).length) ∧
    ∀ (pages : List (String × Option (List InlineTag))) (name : String)
      (body : Option (List InlineTag)), (name, body) ∈ pages →
      (name, get_key_events_count body) ∈ get_key_events_counts pages := by
  refine ⟨rfl, fun l => rfl, ?_⟩
  intro pages name body h
  exact List.mem_map.mpr ⟨(name, body), h, rfl⟩

/-- C8 (witness): a two-page run, one page with no article body. -/
theorem key_events_absent_body_witness :
    (("Donald Trump", (none : Option (List InlineTag)))
        ∈ [("Bill Clinton", some [InlineTag.strongTag, InlineTag.otherTag,
              InlineTag.bTag]),
           ("Donald Trump", none)]) ∧
    ("Donald Trump", get_key_events_count none)
        ∈ get_key_events_counts
            [("Bill Clinton", some [InlineTag.strongTag, InlineTag.otherTag,
                InlineTag.bTag]),
             ("Donald Trump", none)] :=
  ⟨by decide,
   key_events_absent_body.2.2 _ "Donald Trump" none (by decide)⟩

/-! ## C9 theorem -/

theorem mapOptM_fst {α β : Type}
    (g : String × α → Option (String × β))
    (hg : ∀ p q, g p = some q → q.1 = p.1) :
    ∀ (l : List (String × α)) (t : List (String × β)),
      mapOptM g l = some t → t.map Prod.fst = l.map Prod.fst := by
  intro l
  induction l with
  | nil => intro t h; simp [mapOptM] at h; simp [← h]
  | cons a tl ih =>
    intro t h
    simp only [mapOptM, Option.bind_eq_bind, Option.bind_eq_some,
      Option.pure_def, Option.some.injEq] at h
    obtain ⟨b, hb, r, hr, ht⟩ := h
    subst ht
    simp [hg a b hb, ih r hr]

/-- C9: whenever the record merger succeeds, the merged entity table has
exactly the Source-A fast-facts identifiers as its rows, in order — the
row count equals the number of Source-A fact-sheet identifiers, and no row
identifier is absent from Source A (Source B only contributes the salary
column). -/
theorem merged_rows_match_source_a (m : MillerState)
    (salaries : List (String × String)) (t : List (String × PresRow))
    (h : get_all_presidents_data_df m salaries = some t) :
    t.map Prod.fst = m.fast_facts.map Prod.fst ∧
    t.length = m.fast_facts.length ∧
    ∀ name ∈ t.map Prod.fst, name ∈ m.fast_facts.map Prod.fst := by
  have hfst := mapOptM_fst _ ?_ _ _ h
  · refine ⟨hfst, ?_, ?_⟩
    · have := congrArg List.length hfst
      simpa using this
    · intro name hname
      rw [hfst] at hname
      exact hname
  · intro p q hpq
    simp only [Option.bind_eq_bind, Option.bind_eq_some, Option.pure_def,
      Option.some.injEq] at hpq
    obtain ⟨d, hd, q', hq', k, hk, s, hs, hq⟩ := hpq
    simp [← hq]

/-- C9 (witness): a concrete two-president merge. -/
theorem merged_rows_match_source_a_witness :
    (get_all_presidents_data_df
        ⟨[("George Washington", [("Full Name", "George Washington")]),
          ("John Adams", [("Full Name", "John Adams")])],
         [("George Washington", "d1"), ("John Adams", "d2")],
         [("George Washington", "q1"), ("John Adams", "q2")],
         [("George Washington", 3), ("John Adams", 4)]⟩
        [("George Washington", "$25,000"), ("John Adams", "$25,000")]
      = some
        [("George Washington",
          PresRow.mk [("Full Name", "George Washington")] "d1" "q1" 3 "$25,000"),
         ("John Adams",
          PresRow.mk [("Full Name", "John Adams")] "d2" "q2" 4 "$25,000")]) ∧
    [("George Washington",
        PresRow.mk [("Full Name", "George Washington")] "d1" "q1" 3 "$25,000"),
     ("John Adams",
        PresRow.mk [("Full Name", "John Adams")] "d2" "q2" 4 "$25,000")].length
      = ([("George Washington", [("Full Name", "George Washington")]),
          ("John Adams", [("Full Name", "John Adams")])] :
            List (String × List (String × String))).length := by
  refine ⟨by decide, ?_⟩
  exact (merged_rows_match_source_a
    ⟨[("George Washington", [("Full Name", "George Washington")]),
      ("John Adams", [("Full Name", "John Adams")])],
     [("George Washington", "d1"), ("John Adams", "d2")],
     [("George Washington", "q1"), ("John Adams", "q2")],
     [("George Washington", 3), ("John Adams", 4)]⟩
    [("George Washington", "$25,000"), ("John Adams", "$25,000")]
    _ (by decide)).2.1



theorem getLast?_cons_of_ne_nil {α : Type} (a : α) {l : List α}
    (h : l ≠ []) : (a :: l).getLast? = l.getLast? := by
  cases l with
  | nil => exact absurd rfl h
  | cons b t => exact List.getLast?_cons_cons

theorem lookup_foldl_setA :
    ∀ (l : List (Nat × ETable)) (acc : List (String × List (String × ELeaf)))
      (y : String),
      lookupA
          (l.foldl (fun r c => setA r c.2.year (tableEntry c.1 c.2)) acc) y =
        match (l.filter (fun c => c.2.year == y)).getLast? with
        | some c => some (tableEntry c.1 c.2)
        | none => lookupA acc y := by
  intro l
  induction l with
  | nil => intro acc y; simp
  | cons c t ih =>
    intro acc y
    simp only [List.foldl_cons, List.filter_cons]
    rw [ih]
    by_cases hc : c.2.year = y
    · simp only [hc, beq_self_eq_true, if_pos]
      rcases hlast : (t.filter (fun c => c.2.year == y)).getLast? with _ | c'
      · have hnil := List.getLast?_eq_none_iff.mp hlast
        rw [hnil]
        simp [hc, lookupA_setA_self]
      · have hne : t.filter (fun c => c.2.year == y) ≠ [] := by
          intro hn; rw [hn] at hlast; simp at hlast
        rw [getLast?_cons_of_ne_nil _ hne, hlast]
    · have hbeq : (c.2.year == y) = false := beq_eq_false_iff_ne.mpr hc
      simp only [hbeq, Bool.false_eq_true, if_neg, ite_false]
      rcases hlast : (t.filter (fun c => c.2.year == y)).getLast? with _ | c'
      · simp [hlast, lookupA_setA_ne _ _ _ _ (Ne.symm hc)]
      · simp [hlast]

theorem get_election_results_eq_flat_aux :
    ∀ (pages : List EPage) (acc : List (String × List (String × ELeaf))),
      pages.foldl
          (fun res pg =>
            pg.tables.foldl
              (fun r tb => setA r tb.year (tableEntry pg.headerThCount tb))
              res)
          acc
        = (flatTables pages).foldl
            (fun r c => setA r c.2.year (tableEntry c.1 c.2)) acc := by
  intro pages
  induction pages with
  | nil => intro acc; simp [flatTables]
  | cons pg rest ih =>
    intro acc
    simp only [List.foldl_cons, flatTables, List.map_cons, List.flatten_cons,
      List.foldl_append]
    rw [ih]
    congr 1
    rw [List.foldl_map]

/-- C10: each table resets its year's accumulated entry before its own rows
are read, so the final Election Results Table maps every year to exactly
the candidate rows of the *last* table bearing that year in processing
order (pages in document order, tables in page order) — later pages
overwrite earlier pages' entries for a repeated year — and a year borne by
no table is absent. -/
theorem election_year_last_table_wins (pages : List EPage) (y : String) :
    lookupA (get_election_results pages) y =
      (((flatTables pages).filter (fun c => c.2.year == y)).getLast?).map
        (fun c => tableEntry c.1 c.2) := by
  rw [get_election_results, get_election_results_eq_flat_aux,
    lookup_foldl_setA]
  rcases hlast : ((flatTables pages).filter (fun c => c.2.year == y)).getLast?
    with _ | c
  · rw [hlast]
    rfl
  · rw [hlast]
    rfl

/-! ## C5 theorem -/

/-- C5: for an entity with term-start year `Y`: if the `(Y-1, Electoral
Votes)` cell exists for that entity, the share is that cell divided by the
sum of all candidates' electoral votes of year `Y-1` (with a nonzero total,
the real case whenever an election was held) and the missing marker when
the cell itself is missing; if the `Y-1` lookup fails (row or column
absent) but the `(Y, Electoral Votes)` lookup succeeds, the same quotient
is taken over year `Y`; if both lookups fail the share is the missing-value
marker, not an error.  Each branch assumes only what it uses: the retry and
succession branches need nothing about year `Y-1`, whose column is absent
exactly when they fire. -/
theorem electoral_share_rule (t : ElectionsTable) (p : String) (Y : Int) :
    (∀ n : Int,
      locCell t p (intToStr (Y - 1), "Electoral Votes") = some (some n) →
      colSum t (intToStr (Y - 1), "Electoral Votes") ≠ 0 →
      compute_first_electoral_vote_share t p Y
        = PyFloat.val ((n : ℚ)
            / (colSum t (intToStr (Y - 1), "Electoral Votes") : ℚ))) ∧
    (locCell t p (intToStr (Y - 1), "Electoral Votes") = some none →
      compute_first_electoral_vote_share t p Y = PyFloat.nan) ∧
    (locCell t p (intToStr (Y - 1), "Electoral Votes") = none →
      ∀ n : Int,
        locCell t p (intToStr Y, "Electoral Votes") = some (some n) →
        colSum t (intToStr Y, "Electoral Votes") ≠ 0 →
        compute_first_electoral_vote_share t p Y
          = PyFloat.val ((n : ℚ)
              / (colSum t (intToStr Y, "Electoral Votes") : ℚ))) ∧
    (locCell t p (intToStr (Y - 1), "Electoral Votes") = none →
      locCell t p (intToStr Y, "Electoral Votes") = some none →
      compute_first_electoral_vote_share t p Y = PyFloat.nan) ∧
    (locCell t p (intToStr (Y - 1), "Electoral Votes") = none →
      locCell t p (intToStr Y, "Electoral Votes") = none →
      compute_first_electoral_vote_share t p Y = PyFloat.nan) := by
  refine ⟨?_, ?_, ?_, ?_, ?_⟩
  · intro n hv hs
    simp only [compute_first_electoral_vote_share, hv, divCell, pyDivFloat,
      if_pos hs]
  · intro hv
    simp only [compute_first_electoral_vote_share, hv, divCell]
  · intro hnone n hv hs
    simp only [compute_first_electoral_vote_share, hnone, hv, divCell,
      pyDivFloat, if_pos hs]
  · intro hnone hv
    simp only [compute_first_electoral_vote_share, hnone, hv, divCell]
  · intro hn1 hn2
    simp only [compute_first_electoral_vote_share, hn1, hn2]

/-- C5 (witness): on the concrete single-year table, entity A with
term-start 1841 gets its 1840 share 3/4 through the `Y-1` branch, and an
entity absent from the table (a successor president) gets the missing
marker through the both-lookups-fail branch. -/
theorem electoral_share_rule_witness :
    locCell tC5 "A" (intToStr (1841 - 1), "Electoral Votes")
      = some (some 3) ∧
    colSum tC5 (intToStr (1841 - 1), "Electoral Votes") ≠ 0 ∧
    compute_first_electoral_vote_share tC5 "A" 1841
      = PyFloat.val ((3 : ℚ) / 4) ∧
    locCell tC5 "C" (intToStr (1841 - 1), "Electoral Votes") = none ∧
    locCell tC5 "C" (intToStr 1841, "Electoral Votes") = none ∧
    compute_first_electoral_vote_share tC5 "C" 1841 = PyFloat.nan := by
  refine ⟨by decide, by decide, ?_, by decide, by decide, ?_⟩
  · have h := (electoral_share_rule tC5 "A" 1841).1 3 (by decide) (by decide)
    rw [h]
    have hc : colSum tC5 (intToStr (1841 - 1), "Electoral Votes") = 4 := by
      decide
    rw [hc]
    norm_num
  · exact (electoral_share_rule tC5 "C" 1841).2.2.2.2 (by decide) (by decide)

/-! ## Numeral round-trip lemmas and C7 theorems -/

theorem ofDigitsLE_natDigitsAux :
    ∀ (fuel n : Nat), n ≤ fuel → ofDigitsLE (natDigitsAux fuel n) = n := by
  intro fuel
  induction fuel with
  | zero => intro n h; interval_cases n; rfl
  | succ f ih =>
    intro n h
    by_cases hn : n = 0
    · simp [natDigitsAux, hn, ofDigitsLE]
    · have hdiv : n / 10 ≤ f := by
        have := Nat.div_lt_self (Nat.pos_of_ne_zero hn) (by norm_num : 1 < 10)
        omega
      simp only [natDigitsAux, if_neg hn, ofDigitsLE, ih _ hdiv]
      omega

theorem natDigitsAux_lt_ten :
    ∀ (fuel n d : Nat), d ∈ natDigitsAux fuel n → d < 10 := by
  intro fuel
  induction fuel with
  | zero => intro n d h; simp [natDigitsAux] at h
  | succ f ih =>
    intro n d h
    by_cases hn : n = 0
    · simp [natDigitsAux, hn] at h
    · simp only [natDigitsAux, if_neg hn, List.mem_cons] at h
      rcases h with h | h
      · subst h; exact Nat.mod_lt n (by norm_num)
      · exact ih _ _ h

theorem parseBE_reverse (l : List Nat) : parseBE l.reverse = ofDigitsLE l := by
  induction l with
  | nil => rfl
  | cons d ds ih =>
    simp only [List.reverse_cons, parseBE, List.foldl_append, ofDigitsLE]
    simp only [parseBE] at ih
    simp [ih]
    ring

theorem toDigitNat_digitCh (d : Nat) (h : d < 10) :
    toDigitNat (digitCh d) = d := by
  interval_cases d <;> decide

theorem isDigitCh_digitCh (d : Nat) (h : d < 10) :
    isDigitCh (digitCh d) = true := by
  interval_cases d <;> decide

theorem isSpaceCh_digitCh (d : Nat) (h : d < 10) :
    isSpaceCh (digitCh d) = false := by
  interval_cases d <;> decide

theorem digitCh_ne_plus (d : Nat) (h : d < 10) : digitCh d ≠ '+' := by
  interval_cases d <;> decide

theorem digitCh_ne_minus (d : Nat) (h : d < 10) : digitCh d ≠ '-' := by
  interval_cases d <;> decide

theorem dropWhile_of_forall_false {α : Type} (p : α → Bool) (l : List α)
    (h : ∀ c ∈ l, p c = false) : l.dropWhile p = l := by
  cases l with
  | nil => rfl
  | cons a t => simp [List.dropWhile_cons, h a (List.mem_cons_self a t)]

theorem natDigitsLE_ne_nil (n : Nat) (hn : n ≠ 0) : natDigitsLE n ≠ [] := by
  obtain ⟨m, rfl⟩ := Nat.exists_eq_succ_of_ne_zero hn
  simp [natDigitsLE, natDigitsAux, hn]

theorem natToStr_mem (n : Nat) :
    ∀ c ∈ (natToStr n).data, ∃ d, d < 10 ∧ c = digitCh d := by
  intro c hc
  by_cases hn : n = 0
  · subst hn
    have h0 : (natToStr 0).data = ['0'] := rfl
    rw [h0] at hc
    simp at hc
    subst hc
    exact ⟨0, by norm_num, by decide⟩
  · simp only [natToStr, if_neg hn] at hc
    obtain ⟨d, hd, rfl⟩ := List.mem_map.mp hc
    exact ⟨d, natDigitsAux_lt_ten _ _ _ (List.mem_reverse.mp hd), rfl⟩

theorem natToStr_ne_nil (n : Nat) : (natToStr n).data ≠ [] := by
  by_cases hn : n = 0
  · subst hn; decide
  · simp only [natToStr, if_neg hn]
    simp [natDigitsLE_ne_nil n hn]

theorem parseDigits_natToStr (n : Nat) :
    parseDigits (natToStr n).data = some n := by
  by_cases hn : n = 0
  · subst hn; decide
  · have hdata : (natToStr n).data = ((natDigitsLE n).reverse).map digitCh := by
      simp [natToStr, hn]
    have halldig : (natToStr n).data.all isDigitCh = true := by
      rw [List.all_eq_true]
      intro c hc
      obtain ⟨d, hd, rfl⟩ := natToStr_mem n c hc
      exact isDigitCh_digitCh d hd
    rw [parseDigits, if_pos ⟨natToStr_ne_nil n, halldig⟩]
    have hmap : (natToStr n).data.map toDigitNat = (natDigitsLE n).reverse := by
      rw [hdata, List.map_map]
      have : ∀ d ∈ (natDigitsLE n).reverse,
          (toDigitNat ∘ digitCh) d = id d := by
        intro d hd
        exact toDigitNat_digitCh d
          (natDigitsAux_lt_ten _ _ _ (List.mem_reverse.mp hd))
      rw [List.map_congr_left this, List.map_id]
    rw [hmap, parseBE_reverse]
    have : ofDigitsLE (natDigitsLE n) = n := ofDigitsLE_natDigitsAux n n le_rfl
    rw [this]

theorem natToStr_nospace (n : Nat) :
    ∀ c ∈ (natToStr n).data, isSpaceCh c = false := by
  intro c hc
  obtain ⟨d, hd, rfl⟩ := natToStr_mem n c hc
  exact isSpaceCh_digitCh d hd

theorem pyInt_natToStr (n : Nat) : pyInt (natToStr n) = some (n : Int) := by
  rw [pyInt]
  rw [dropWhile_of_forall_false _ _ (natToStr_nospace n)]
  rw [dropWhile_of_forall_false _ _ (by
    intro c hc
    exact natToStr_nospace n c (List.mem_reverse.mp hc))]
  rw [List.reverse_reverse]
  have hhead : ∀ c, (natToStr n).data.head? = some c → c ≠ '+' ∧ c ≠ '-' := by
    intro c hc
    have hcm : c ∈ (natToStr n).data := by
      cases hl : (natToStr n).data with
      | nil => rw [hl] at hc; simp at hc
      | cons a t =>
        rw [hl] at hc
        simp at hc
        subst hc
        exact hl ▸ List.mem_cons_self a t
    obtain ⟨d, hd, rfl⟩ := natToStr_mem n c hcm
    exact ⟨digitCh_ne_plus d hd, digitCh_ne_minus d hd⟩
  rw [if_neg ?hp, if_neg ?hm]
  case hp =>
    intro hc
    exact absurd rfl (hhead _ hc).1
  case hm =>
    intro hc
    exact absurd rfl (hhead _ hc).2
  rw [parseDigits_natToStr]
  rfl

theorem pyInt_intToStr (z : Int) : pyInt (intToStr z) = some z := by
  rcases z with m | m
  · rw [intToStr, if_neg (by exact of_decide_eq_false rfl)]
    exact pyInt_natToStr m
  · rw [intToStr, if_pos (Int.negSucc_lt_zero m)]
    have hnatAbs : (Int.negSucc m).natAbs = m + 1 := rfl
    rw [hnatAbs, pyInt]
    have hdata : ("-" ++ natToStr (m + 1)).data
        = '-' :: (natToStr (m + 1)).data := by
      rw [String.data_append]
      rfl
    rw [hdata]
    rw [dropWhile_of_forall_false isSpaceCh ('-' :: (natToStr (m + 1)).data)
      (fun c hc => by
        rcases List.mem_cons.mp hc with h | h
        · subst h; decide
        · exact natToStr_nospace (m + 1) c h)]
    rw [dropWhile_of_forall_false isSpaceCh
      ('-' :: (natToStr (m + 1)).data).reverse
      (fun c hc => by
        rcases List.mem_cons.mp (List.mem_reverse.mp hc) with h | h
        · subst h; decide
        · exact natToStr_nospace (m + 1) c h)]
    rw [List.reverse_reverse]
    rw [if_neg (by simp), if_pos (by simp)]
    simp only [List.tail_cons]
    rw [parseDigits_natToStr]
    simp [Int.negSucc_eq]



theorem mapOptM_of_forall_id {α : Type} (f : α → Option α) :
    ∀ (l : List α), (∀ v ∈ l, f v = some v) → mapOptM f l = some l := by
  intro l
  induction l with
  | nil => intro h; rfl
  | cons a t ih =>
    intro h
    simp only [mapOptM, h a (List.mem_cons_self a t),
      ih (fun v hv => h v (List.mem_cons_of_mem a hv)), Option.bind_eq_bind,
      Option.some_bind, Option.pure_def]

theorem mapOptM_stable {α : Type} (f : α → Option α)
    (hf : ∀ v w, f v = some w → f w = some w) :
    ∀ (l l' : List α), mapOptM f l = some l' → mapOptM f l' = some l' := by
  intro l
  induction l with
  | nil =>
    intro l' h
    simp only [mapOptM] at h
    rw [← Option.some.injEq] at h
    simp at h
    subst h
    rfl
  | cons a t ih =>
    intro l' h
    simp only [mapOptM, Option.bind_eq_bind, Option.bind_eq_some,
      Option.pure_def, Option.some.injEq] at h
    obtain ⟨b, hb, r, hr, hl⟩ := h
    subst hl
    simp only [mapOptM, Option.bind_eq_bind, hf a b hb, Option.some_bind,
      ih r hr, Option.pure_def]

theorem strConv_idem (v : PVal) : strConv (strConv v) = strConv v := by
  by_cases h : pyStr v = "None" ∨ pyStr v = "nan"
  · have h1 : strConv v = PVal.pnone := by simp [strConv, h]
    rw [h1]
    decide
  · have h1 : strConv v = PVal.pstr (pyStr v) := by simp [strConv, h]
    rw [h1]
    exact if_neg h

theorem pyIntFn_stable (v w : PVal) (h : pyIntFn v = some w) :
    pyIntFn w = some w := by
  cases v with
  | pstr s =>
    simp only [pyIntFn] at h
    obtain ⟨n, hn, rfl⟩ := Option.map_eq_some'.mp h
    rfl
  | pint n =>
    simp only [pyIntFn, Option.some.injEq] at h
    subst h; rfl
  | pfloat n =>
    simp only [pyIntFn, Option.some.injEq] at h
    subst h; rfl
  | pnone => exact absurd h (by simp [pyIntFn])
  | pnan => exact absurd h (by simp [pyIntFn])
  | pnat => exact absurd h (by simp [pyIntFn])
  | pts n => exact absurd h (by simp [pyIntFn])

theorem salaryConv_stable (v w : PVal) (h : salaryConv v = some w) :
    salaryConv w = some w := by
  cases v with
  | pstr s =>
    simp only [salaryConv] at h
    obtain ⟨n, hn, rfl⟩ := Option.map_eq_some'.mp h
    rfl
  | pint n => simp only [salaryConv, Option.some.injEq] at h; subst h; rfl
  | pfloat n => simp only [salaryConv, Option.some.injEq] at h; subst h; rfl
  | pnone => simp only [salaryConv, Option.some.injEq] at h; subst h; rfl
  | pnan => simp only [salaryConv, Option.some.injEq] at h; subst h; rfl
  | pnat => simp only [salaryConv, Option.some.injEq] at h; subst h; rfl
  | pts n => simp only [salaryConv, Option.some.injEq] at h; subst h; rfl

theorem tsConv_stable (parse : String → Option Int) (v w : PVal)
    (h : tsConv parse v = some w) : tsConv parse w = some w := by
  cases v with
  | pstr s =>
    simp only [tsConv] at h
    obtain ⟨n, hn, rfl⟩ := Option.map_eq_some'.mp h
    rfl
  | pint n => simp only [tsConv, Option.some.injEq] at h; subst h; rfl
  | pfloat n => simp only [tsConv, Option.some.injEq] at h; subst h; rfl
  | pnone => simp only [tsConv, Option.some.injEq] at h; subst h; rfl
  | pnan => simp only [tsConv, Option.some.injEq] at h; subst h; rfl
  | pnat => simp only [tsConv, Option.some.injEq] at h; subst h; rfl
  | pts n => simp only [tsConv, Option.some.injEq] at h; subst h; rfl

theorem convertCol_stable (parse : String → Option Int) (name : String)
    (cells cells' : List PVal) (h : convertCol parse name cells = some cells') :
    convertCol parse name cells' = some cells' := by
  by_cases h1 : name ∈ STR_VARIABLES
  · simp only [convertCol, if_pos h1] at h ⊢
    rw [← Option.some.injEq] at h
    simp at h
    subst h
    rw [List.map_map]
    congr 1
    exact List.map_congr_left (fun v _ => strConv_idem v)
  · by_cases h2 : name ∈ INT_VARIABLES
    · by_cases h3 : name = "Salary"
      · simp only [convertCol, if_neg h1, if_pos h2, if_pos h3] at h ⊢
        exact mapOptM_stable _ salaryConv_stable _ _ h
      · simp only [convertCol, if_neg h1, if_pos h2, if_neg h3] at h ⊢
        exact mapOptM_stable _ pyIntFn_stable _ _ h
    · by_cases h4 : name ∈ TIMESTAMP_VARIABLES
      · simp only [convertCol, if_neg h1, if_neg h2, if_pos h4] at h ⊢
        exact mapOptM_stable _ (tsConv_stable parse) _ _ h
      · simp only [convertCol, if_neg h1, if_neg h2, if_neg h4]

theorem votesCellConv_pint (n : Int) :
    votesCellConv (PVal.pint n) = some (PVal.pint n) := by
  simp [votesCellConv, pyStr, extract_votes, pyInt_intToStr]

/-- C7 (amended): the presidents-table normalizer is idempotent — whenever
it succeeds, re-normalizing its output reproduces it — and the
elections-table normalizer is idempotent exactly on normalized tables in
which no column holds both an integer cell and a missing cell: such a
column is upcast to float64, whose string form (`"42.0"`) the vote parser
cannot re-parse (see the counterexample). -/
theorem normalizer_idempotence_amended :
    (∀ (parse : String → Option Int) (t u : PresTable),
      convert_presidents_data parse t = some u →
      convert_presidents_data parse u = some u) ∧
    (∀ u : List (List PVal),
      (∀ col ∈ u, ∀ v ∈ col, isNanCell v = true ∨ isIntCell v = true) →
      (∀ col ∈ u, ¬(col.any isNanCell = true ∧ col.any isIntCell = true)) →
      convert_elections_data u = some u) := by
  constructor
  · intro parse t u h
    simp only [convert_presidents_data] at h ⊢
    obtain ⟨cols', hcols, hu⟩ := Option.map_eq_some'.mp h
    subst hu
    rw [mapOptM_stable _ ?stab _ _ hcols]
    · rfl
    case stab =>
      intro c c' hc
      obtain ⟨cells', hcells, hc'⟩ := Option.map_eq_some'.mp hc
      subst hc'
      simp only [Option.map_eq_some']
      exact ⟨cells', convertCol_stable parse c.1 c.2 cells' hcells, rfl⟩
  · intro u hcell hmix
    simp only [convert_elections_data]
    apply mapOptM_of_forall_id
    intro col hcol
    have hconv : mapOptM votesCellConv col = some col := by
      apply mapOptM_of_forall_id
      intro v hv
      rcases hcell col hcol v hv with h | h
      · cases v <;> simp [isNanCell] at h
        decide
      · cases v <;> simp [isIntCell] at h
        exact votesCellConv_pint _
    rw [hconv]
    simp only [Option.map_eq_some']
    refine ⟨col, rfl, ?_⟩
    rw [inferCol, if_neg (hmix col hcol)]

/-- C7 (witness): idempotence applied to a concrete three-column presidents
table (one string, one integer, one timestamp column) and to a concrete
single-column elections table with no int/missing mixing. -/
theorem normalizer_idempotence_amended_witness :
    convert_presidents_data (fun _ => some 0)
        ⟨[("Full Name", [PVal.pstr "George Washington"]),
          ("President Number", [PVal.pint 1]),
          ("Birth Date", [PVal.pts 0])]⟩
      = some ⟨[("Full Name", [PVal.pstr "George Washington"]),
          ("President Number", [PVal.pint 1]),
          ("Birth Date", [PVal.pts 0])]⟩ ∧
    convert_elections_data [[PVal.pint 42, PVal.pint 1]]
      = some [[PVal.pint 42, PVal.pint 1]] :=
  ⟨normalizer_idempotence_amended.1 (fun _ => some 0)
      ⟨[("Full Name", [PVal.pstr "George Washington"]),
        ("President Number", [PVal.pstr "1"]),
        ("Birth Date", [PVal.pstr "x"])]⟩
      ⟨[("Full Name", [PVal.pstr "George Washington"]),
        ("President Number", [PVal.pint 1]),
        ("Birth Date", [PVal.pts 0])]⟩ (by decide),
   normalizer_idempotence_amended.2 [[PVal.pint 42, PVal.pint 1]]
      (by decide) (by decide)⟩

/-- C7 (counterexample): normalizing an already-normalized elections table
is *not* a no-op — the normalized form of the raw column `["42", "None"]`
is the float/missing column `[42.0, NaN]`, and re-normalizing it raises an
uncaught `ValueError` (`int("42.0")`) instead of returning it unchanged. -/
theorem normalizer_idempotence_counterexample :
    convert_elections_data [[PVal.pstr "42", PVal.pstr "None"]]
      = some [[PVal.pfloat 42, PVal.pnan]] ∧
    convert_elections_data [[PVal.pfloat 42, PVal.pnan]] = none ∧
    (none : Option (List (List PVal))) ≠ some [[PVal.pfloat 42, PVal.pnan]] :=
  ⟨by decide, by decide, by decide⟩

end USPres
